import Mathlib

/-!
Shallow embedding of the scheduled-post lifecycle and kill-switch subsystem
of the Vaani Sentinel repository (agents/scheduler.py and
agents/security_guard.py), together with theorems settling the frozen
claims about it.

Modelling conventions:
* Python strings are embedded as `List Char` (`Str`), matching Python's
  code-point indexing, slicing and `len`.
* Python dicts are embedded as insertion-ordered association lists with
  the overwrite-on-existing-key update of `dict.__setitem__` /
  `dict.update`; iteration order is insertion order, as in CPython.
* Timestamps (`datetime.utcnow()`, `scheduled_time`) are embedded as
  `Nat`; `isoformat` string comparison is order-isomorphic to timestamp
  comparison for a fixed format, so sorting by the isoformat key is
  embedded as sorting by the numeric timestamp.
* Sources of nondeterminism (uuid4, random.random, utcnow) are passed in
  explicitly as oracle values.
* File persistence (`_save_scheduled_posts`) rewrites the whole store from
  the in-memory map and is not itself observed by any claim; the in-memory
  map is the embedded state.
-/

/-- Python `str` as a list of code points. -/
abbrev Str := List Char

/-- Python `str.lower()` (ASCII-faithful). -/
def strLower (s : Str) : Str := s.map Char.toLower

/-! ## Association-list embedding of Python dicts -/

/-- Python `d[k] = v`: overwrite the existing key in place, else append. -/
def dictSet {α : Type} (m : List (Str × α)) (k : Str) (v : α) : List (Str × α) :=
  if m.any (fun e => e.1 = k) then
    m.map (fun e => if e.1 = k then (k, v) else e)
  else
    m ++ [(k, v)]

/-- Python `d.get(k)`. -/
def dictGet? {α : Type} (m : List (Str × α)) (k : Str) : Option α :=
  (m.find? (fun e => e.1 = k)).map (fun e => e.2)

/-- Python `d.get(k, d0)`. -/
def dictGetD {α : Type} (m : List (Str × α)) (k : Str) (d0 : α) : α :=
  (dictGet? m k).getD d0

/-! ## scheduler.py: data model -/

/-- Enum `PublishStatus` of scheduler.py. -/
inductive PublishStatus where
  | SCHEDULED
  | PUBLISHED
  | FAILED
  | CANCELLED
deriving DecidableEq, Repr

/-- String `.value` of a `PublishStatus` member. -/
def PublishStatus.value : PublishStatus → Str
  | .SCHEDULED => "scheduled".toList
  | .PUBLISHED => "published".toList
  | .FAILED => "failed".toList
  | .CANCELLED => "cancelled".toList

/-- Platform-specific payload built by the `_format_*_post` methods of
`PlatformSimulator`. -/
inductive MPayload where
  | twitter (text : Str) (media : List Str) (replySettings : Str)
  | instagram (caption : Str) (mediaType : Str) (mediaUrl : Option Str)
      (accessToken : Str)
  | linkedin (author : Str) (lifecycleState : Str) (text : Str)
      (shareMediaCategory : Str) (visibility : Str)
  | spotify (name : Str) (description : Str) (audioPreviewUrl : Option Str)
      (durationMs : Nat) (lang : Str)
deriving DecidableEq, Repr

/-- Values stored in the open `metadata: Dict[str, Any]` bag of a post.
Only the shapes the scheduler itself reads or writes are distinguished;
`apiResp` stands for the response dict built by `_mock_api_call`
(mock endpoint plus request echo and random latency statistics). -/
inductive MVal where
  | str (s : Str)
  | num (n : Nat)
  | strs (l : List Str)
  | payload (p : MPayload)
  | apiResp (mockEndpoint : Option Str)
deriving DecidableEq, Repr

/-- Dataclass `ScheduledPost` of scheduler.py. -/
structure ScheduledPost where
  post_id : Str
  content_id : Str
  platform : Str
  content : Str
  scheduled_time : Nat
  status : PublishStatus
  metadata : List (Str × MVal)
  created_at : Nat
  published_at : Option Nat := none
  error_message : Option Str := none
deriving DecidableEq, Repr

/-! ## scheduler.py: PlatformSimulator -/

/-- Dict `mock_endpoints` of `PlatformSimulator.__init__`, accessed via
`.get`. -/
def mock_endpoints_get (platform : Str) : Option Str :=
  if platform = "twitter".toList then
    some "https://api.twitter.com/2/tweets".toList
  else if platform = "instagram".toList then
    some "https://graph.instagram.com/v12.0/me/media".toList
  else if platform = "linkedin".toList then
    some "https://api.linkedin.com/v2/ugcPosts".toList
  else if platform = "spotify".toList then
    some "https://api.spotify.com/v1/episodes".toList
  else none

/-- Lookup `metadata.get("media_urls", [])`; callers of the scheduler only
store lists of URL strings under this key, so other `MVal` shapes are
treated as the missing-key default. -/
def getMediaUrls (metadata : List (Str × MVal)) : List Str :=
  match dictGet? metadata "media_urls".toList with
  | some (.strs l) => l
  | _ => []

/-- Truncation of `_format_twitter_post`: `content[:277] + "..."` when
`len(content) > 280`. -/
def twitterText (content : Str) : Str :=
  if content.length > 280 then content.take 277 ++ "...".toList else content

/-- Method `_format_twitter_post`. Formatting itself never raises. -/
def _format_twitter_post (content : Str) (metadata : List (Str × MVal)) :
    Except Str MPayload :=
  .ok (.twitter (twitterText content) (getMediaUrls metadata)
    "everyone".toList)

/-- Method `_format_instagram_post`. `metadata.get("media_urls", [None])[0]`
raises `IndexError` when the key holds an empty list; the raised message is
the one `str(e)` produces for that error. -/
def _format_instagram_post (content : Str) (metadata : List (Str × MVal)) :
    Except Str MPayload :=
  let mediaType :=
    if getMediaUrls metadata ≠ [] then "CAROUSEL_ALBUM".toList
    else "TEXT".toList
  match dictGet? metadata "media_urls".toList with
  | some (.strs []) => .error "list index out of range".toList
  | some (.strs (u :: _)) =>
      .ok (.instagram content mediaType (some u) "mock_token".toList)
  | _ => .ok (.instagram content mediaType none "mock_token".toList)

/-- Method `_format_linkedin_post`. -/
def _format_linkedin_post (content : Str) (_metadata : List (Str × MVal)) :
    Except Str MPayload :=
  .ok (.linkedin "urn:li:person:mock_user".toList "PUBLISHED".toList content
    "NONE".toList "PUBLIC".toList)

/-- Method `_format_spotify_post`. `metadata.get("duration", 30)` is stored
as a number by callers; other shapes are treated as the default 30. -/
def _format_spotify_post (content : Str) (metadata : List (Str × MVal)) :
    Except Str MPayload :=
  let durationMs :=
    match dictGet? metadata "duration".toList with
    | some (.num n) => n * 1000
    | _ => 30 * 1000
  let langField :=
    match dictGet? metadata "language".toList with
    | some (.str l) => l
    | _ => "en".toList
  .ok (.spotify ("Episode: ".toList ++ content.take 50 ++ "...".toList)
    content
    (match dictGet? metadata "audio_url".toList with
     | some (.str u) => some u
     | _ => none)
    durationMs langField)

/-- Dict `platform_formatters` of `PlatformSimulator.__init__`, accessed via
`.get`. -/
def platform_formatters_get (platform : Str) :
    Option (Str → List (Str × MVal) → Except Str MPayload) :=
  if platform = "twitter".toList then some _format_twitter_post
  else if platform = "instagram".toList then some _format_instagram_post
  else if platform = "linkedin".toList then some _format_linkedin_post
  else if platform = "spotify".toList then some _format_spotify_post
  else none

/-- Oracle for one publish attempt: the `random.random() < 0.9` draw, the
two `uuid4().hex[:8]` values and the `datetime.utcnow()` timestamps of the
attempt. -/
structure SimOutcome where
  succeed : Bool
  hexId : Str
  hexUrl : Str
  pubTime : Nat
deriving DecidableEq, Repr

/-- Result dict returned by `simulate_publish`: either the success dict or
the failure dict (with its optional `retry_after` field). -/
inductive PubResult where
  | success (platform_post_id : Str) (published_at : Nat)
      (platform_url : Str) (formatted_content : MPayload)
      (api_response : Option Str)
  | failed (error : Str) (retry_after : Option Nat)
deriving DecidableEq, Repr

/-- Body of the `try:` block of `simulate_publish`: `.error` is a raised
exception (unsupported platform, or a formatter error). -/
def simulate_publish_body (o : SimOutcome) (post : ScheduledPost) :
    Except Str PubResult :=
  match platform_formatters_get post.platform with
  | none => .error ("Unsupported platform: ".toList ++ post.platform)
  | some formatter =>
      match formatter post.content post.metadata with
      | .error e => .error e
      | .ok formatted_content =>
          if o.succeed then
            .ok (.success (post.platform ++ "_".toList ++ o.hexId) o.pubTime
              ("https://".toList ++ post.platform ++ ".com/post/".toList
                ++ o.hexUrl)
              formatted_content (mock_endpoints_get post.platform))
          else
            .ok (.failed "Platform API error (simulated)".toList (some 300))

/-- Method `simulate_publish`: the blanket `except Exception` converts any
raised error into the failure dict `\x7b"status": "failed", "error": str(e)\x7d`
with no `retry_after` key. -/
def simulate_publish (o : SimOutcome) (post : ScheduledPost) : PubResult :=
  match simulate_publish_body o post with
  | .ok r => r
  | .error e => .failed e none

/-! ## scheduler.py: SchedulerPublisher -/

/-- In-memory store `self.scheduled_posts`: a Python dict `post_id → post`,
embedded as an insertion-ordered association list. -/
abbrev Store := List (Str × ScheduledPost)

/-- Method `schedule_post`; the fresh `uuid4()` id and `utcnow()` are oracle
arguments. Always succeeds, initial status SCHEDULED. -/
def schedule_post (store : Store) (post_id : Str) (content_id : Str)
    (platform : Str) (content : Str) (scheduled_time : Nat)
    (metadata : List (Str × MVal)) (now : Nat) : Store × ScheduledPost :=
  let post : ScheduledPost :=
    { post_id := post_id
      content_id := content_id
      platform := platform
      content := content
      scheduled_time := scheduled_time
      status := .SCHEDULED
      metadata := metadata
      created_at := now }
  (dictSet store post_id post, post)

/-- Python `metadata.update(result)` for a success result dict, key by key
in the dict's insertion order. -/
def resultEntries (r : PubResult) : List (Str × MVal) :=
  match r with
  | .success pid t url payload endpoint =>
      [("status".toList, .str "success".toList),
       ("platform_post_id".toList, .str pid),
       ("published_at".toList, .num t),
       ("platform_url".toList, .str url),
       ("formatted_content".toList, .payload payload),
       ("api_response".toList, .apiResp endpoint)]
  | .failed e retry =>
      [("status".toList, .str "failed".toList),
       ("error".toList, .str e)]
      ++ (match retry with
          | some n => [("retry_after".toList, .num n)]
          | none => [])

/-- Python `dict.update`: fold `dictSet` over the entries. -/
def dictUpdate {α : Type} (m : List (Str × α)) (entries : List (Str × α)) :
    List (Str × α) :=
  entries.foldl (fun acc e => dictSet acc e.1 e.2) m

/-- Guard of the sweep loop body: `status == SCHEDULED and
scheduled_time <= current_time`. -/
def dueAt (now : Nat) (post : ScheduledPost) : Prop :=
  post.status = .SCHEDULED ∧ post.scheduled_time ≤ now

instance (now : Nat) (post : ScheduledPost) : Decidable (dueAt now post) :=
  inferInstanceAs (Decidable (_ ∧ _))

/-- Only transition of one sweep iteration, applied to a due post: on a
success result status←PUBLISHED, `published_at` set and metadata merged
with the result dict; otherwise status←FAILED and
`error_message←result.get("error", "Unknown error")`. -/
def publishTransition (r : PubResult) (pubNow : Nat) (post : ScheduledPost) :
    ScheduledPost :=
  match r with
  | .success _ _ _ _ _ =>
      { post with
          status := .PUBLISHED
          published_at := some pubNow
          metadata := dictUpdate post.metadata (resultEntries r) }
  | .failed e _ =>
      { post with status := .FAILED, error_message := some e }

/-- One iteration of the `process_scheduled_posts` loop on one store entry.
The oracle `env` supplies the random draw of the (at most one) publish
attempt for each post id. -/
def stepPost (now : Nat) (env : Str → SimOutcome) (e : Str × ScheduledPost) :
    Str × ScheduledPost :=
  if dueAt now e.2 then
    (e.1, publishTransition (simulate_publish (env e.1) e.2)
      (env e.1).pubTime e.2)
  else e

/-- Entry appended to `processed_posts` for a due post: its id, platform,
post-transition status and the raw result dict. -/
structure ProcessedEntry where
  post_id : Str
  platform : Str
  statusValue : Str
  result : PubResult
deriving DecidableEq, Repr

/-- Optional `processed_posts` entry contributed by one store entry. -/
def sweepEntry (now : Nat) (env : Str → SimOutcome) (e : Str × ScheduledPost) :
    Option ProcessedEntry :=
  if dueAt now e.2 then
    some
      { post_id := e.1
        platform := e.2.platform
        statusValue := ((stepPost now env e).2.status).value
        result := simulate_publish (env e.1) e.2 }
  else none

/-- Method `process_scheduled_posts`: iterate the dict in insertion order,
transition each due post in place, and collect the processed entries. The
source's single loop is split into the pointwise `stepPost` map and the
`sweepEntry` collection; both traverse the same order. -/
def process_scheduled_posts (store : Store) (now : Nat)
    (env : Str → SimOutcome) : Store × List ProcessedEntry :=
  (store.map (stepPost now env), store.filterMap (sweepEntry now env))

/-- Stable insertion into a list sorted by `scheduled_time` (inserts after
equal keys, matching the stability of Python `sorted`). -/
def insertByTime (e : Str × ScheduledPost) :
    List (Str × ScheduledPost) → List (Str × ScheduledPost)
  | [] => [e]
  | q :: qs =>
      if e.2.scheduled_time < q.2.scheduled_time then e :: q :: qs
      else q :: insertByTime e qs

/-- Method `get_scheduled_posts` restricted to the identity filter: the
record list sorted ascending by the `scheduled_time` key (the isoformat
sort key of the source is order-isomorphic to the timestamp). The dict
views in the source carry the same data as the store entries. -/
def get_scheduled_posts (store : Store) : List (Str × ScheduledPost) :=
  store.foldl (fun acc e => insertByTime e acc) []

/-- Method `cancel_scheduled_post`: SCHEDULED→CANCELLED when the id is
present and the post is SCHEDULED; otherwise a `false` no-op. -/
def cancel_scheduled_post (store : Store) (post_id : Str) : Store × Bool :=
  match dictGet? store post_id with
  | some post =>
      if post.status = .SCHEDULED then
        (store.map (fun e =>
          if e.1 = post_id then (e.1, { e.2 with status := .CANCELLED })
          else e), true)
      else (store, false)
  | none => (store, false)

/-- Method `reschedule_post`: mutate `scheduled_time` only while SCHEDULED;
otherwise a `false` no-op. -/
def reschedule_post (store : Store) (post_id : Str) (new_time : Nat) :
    Store × Bool :=
  match dictGet? store post_id with
  | some post =>
      if post.status = .SCHEDULED then
        (store.map (fun e =>
          if e.1 = post_id then (e.1, { e.2 with scheduled_time := new_time })
          else e), true)
      else (store, false)
  | none => (store, false)

/-- Loop of `get_publishing_stats` building the `by_status` counter dict. -/
def byStatusCounts (store : Store) : List (Str × Nat) :=
  store.foldl
    (fun acc e => dictSet acc e.2.status.value (dictGetD acc e.2.status.value 0 + 1))
    []

/-- Loop of `get_publishing_stats` building the `by_platform` counter dict. -/
def byPlatformCounts (store : Store) : List (Str × Nat) :=
  store.foldl
    (fun acc e => dictSet acc e.2.platform (dictGetD acc e.2.platform 0 + 1))
    []

/-- Return value of `get_publishing_stats`; the float `success_rate` is
embedded as a rational. -/
structure PublishingStats where
  total_posts : Nat
  by_status : List (Str × Nat)
  by_platform : List (Str × Nat)
  success_rate : ℚ
deriving DecidableEq, Repr

/-- Method `get_publishing_stats`. -/
def get_publishing_stats (store : Store) : PublishingStats :=
  let by_status := byStatusCounts store
  let published := dictGetD by_status "published".toList 0
  let failed := dictGetD by_status "failed".toList 0
  let total_attempted := published + failed
  { total_posts := store.length
    by_status := by_status
    by_platform := byPlatformCounts store
    success_rate :=
      if total_attempted > 0 then (published : ℚ) / (total_attempted : ℚ)
      else 0 }

/-- Externally exposed mutating operation on the post store, with every
oracle input (fresh ids, clock values, random draws) carried in the
operation itself. -/
inductive SchedulerOp where
  | schedule (post_id content_id platform content : Str)
      (scheduled_time : Nat) (metadata : List (Str × MVal)) (now : Nat)
  | sweep (now : Nat) (env : Str → SimOutcome)
  | cancel (post_id : Str)
  | reschedule (post_id : Str) (new_time : Nat)

/-- Store effect of one operation. -/
def applyOp (store : Store) : SchedulerOp → Store
  | .schedule pid cid platform content t meta now =>
      (schedule_post store pid cid platform content t meta now).1
  | .sweep now env => (process_scheduled_posts store now env).1
  | .cancel pid => (cancel_scheduled_post store pid).1
  | .reschedule pid t => (reschedule_post store pid t).1

/-- Store reached from the empty store by a sequence of operations. -/
def runOps (ops : List SchedulerOp) : Store :=
  ops.foldl applyOp []

/-! ## security_guard.py: data model -/

/-- Enum `FlagType`. -/
inductive FlagType where
  | PROFANITY
  | BIAS
  | CONTROVERSY
  | RELIGIOUS_BIAS
  | POLITICAL_BIAS
  | HATE_SPEECH
  | MISINFORMATION
deriving DecidableEq, Repr

/-- Enum `Severity`. -/
inductive Severity where
  | LOW
  | MEDIUM
  | HIGH
  | CRITICAL
deriving DecidableEq, Repr

/-- Dict `details` of a `SecurityFlag`, per check shape. -/
inductive FlagDetails where
  | patternMatches (ms : List Str) (pattern : Str) (count : Nat)
  | hateMatches (ms : List (Str × Str)) (pattern : Str) (count : Nat)
  | keywordHits (keywords : List Str) (count : Nat)
  | indicatorHits (indicators : List Str) (count : Nat)
deriving DecidableEq, Repr

/-- Class `SecurityFlag`; the oracle-generated `flag_id` (uuid4) and
`created_at` timestamp are identifiers no claim observes and are omitted
from the embedded record. -/
structure SecurityFlag where
  flag_type : FlagType
  severity : Severity
  details : FlagDetails
deriving DecidableEq, Repr

/-! ## security_guard.py: regex and keyword scanners -/

/-- Python regex `\w` over ASCII. -/
def isWordChar (c : Char) : Bool := c.isAlphanum || c = '_'

/-- Boundary test `\b` given the previous character (none at the start). -/
def boundaryBefore (prev : Option Char) : Bool :=
  match prev with
  | none => true
  | some c => !isWordChar c

/-- Try the regex alternation `(w1|w2|...)` followed by `\b` at the head of
`s`; on success return the matched word, its last character and the rest. -/
def matchWordAlt (words : List Str) (s : List Char) :
    Option (Str × Char × List Char) :=
  words.findSome? fun w =>
    if w.isPrefixOf s then
      let rest := s.drop w.length
      let after :=
        match rest with
        | [] => true
        | c :: _ => !isWordChar c
      if after then
        match w.getLast? with
        | some c => some (w, c, rest)
        | none => none
      else none
    else none

/-- Non-overlapping left-to-right scan of `re.findall` for a
`\b(w1|w2|...)\b` pattern; `fuel` bounds the recursion by the input
length. -/
def scanWords (fuel : Nat) (words : List Str) (prev : Option Char)
    (s : List Char) : List Str :=
  match fuel with
  | 0 => []
  | fuel + 1 =>
      match s with
      | [] => []
      | c :: cs =>
          if boundaryBefore prev then
            match matchWordAlt words s with
            | some (w, lastc, rest) => w :: scanWords fuel words (some lastc) rest
            | none => scanWords fuel words (some c) cs
          else scanWords fuel words (some c) cs

/-- Python `re.findall(r"\b(w1|w2|...)\b", s)`. -/
def findWordMatches (words : List Str) (s : Str) : List Str :=
  scanWords s.length words none s

/-- Try `\b(first...)\s+(second...)\s+\w+` at the head of `s`; on success
return the two captured groups, the last consumed character and the rest. -/
def matchPairAt (firstWords secondWords : List Str) (s : List Char) :
    Option ((Str × Str) × Char × List Char) :=
  firstWords.findSome? fun w1 =>
    if w1.isPrefixOf s then
      let r1 := s.drop w1.length
      let ws1 := r1.takeWhile Char.isWhitespace
      if ws1 = [] then none
      else
        let r2 := r1.drop ws1.length
        secondWords.findSome? fun w2 =>
          if w2.isPrefixOf r2 then
            let r3 := r2.drop w2.length
            let ws2 := r3.takeWhile Char.isWhitespace
            if ws2 = [] then none
            else
              let r4 := r3.drop ws2.length
              let run := r4.takeWhile (fun c => isWordChar c)
              match run.getLast? with
              | some c => some ((w1, w2), c, r4.drop run.length)
              | none => none
          else none
    else none

/-- Non-overlapping scan of `re.findall` for the two-group hate-speech
patterns (findall returns the tuple of groups per match). -/
def scanPairs (fuel : Nat) (firstWords secondWords : List Str)
    (prev : Option Char) (s : List Char) : List (Str × Str) :=
  match fuel with
  | 0 => []
  | fuel + 1 =>
      match s with
      | [] => []
      | c :: cs =>
          if boundaryBefore prev then
            match matchPairAt firstWords secondWords s with
            | some (g, lastc, rest) =>
                g :: scanPairs fuel firstWords secondWords (some lastc) rest
            | none => scanPairs fuel firstWords secondWords (some c) cs
          else scanPairs fuel firstWords secondWords (some c) cs

/-- Python `re.findall` for a `\b(f...)\s+(s...)\s+\w+` pattern. -/
def findPairMatches (firstWords secondWords : List Str) (s : Str) :
    List (Str × Str) :=
  scanPairs s.length firstWords secondWords none s

/-! ## security_guard.py: content checks -/

/-- List `profanity_patterns` of `_initialize_security_patterns`: each raw
pattern with its alternation word set. -/
def profanity_patterns : List (Str × List Str) :=
  [("\\b(damn|hell|crap)\\b".toList,
    ["damn".toList, "hell".toList, "crap".toList]),
   ("\\b(stupid|idiot|moron)\\b".toList,
    ["stupid".toList, "idiot".toList, "moron".toList])]

/-- List `religious_bias_keywords`. -/
def religious_bias_keywords : List Str :=
  ["infidel".toList, "heretic".toList, "blasphemy".toList,
   "false prophet".toList, "religious war".toList, "holy war".toList,
   "crusade".toList, "jihad".toList]

/-- List `political_bias_keywords`. -/
def political_bias_keywords : List Str :=
  ["radical left".toList, "radical right".toList, "fascist".toList,
   "communist".toList, "liberal agenda".toList,
   "conservative agenda".toList, "deep state".toList]

/-- List `controversy_keywords`. -/
def controversy_keywords : List Str :=
  ["controversial".toList, "disputed".toList, "debated".toList,
   "contentious".toList, "polarizing".toList, "divisive".toList,
   "inflammatory".toList]

/-- List `hate_speech_patterns`: each raw pattern with its two alternation
word sets. -/
def hate_speech_patterns : List (Str × List Str × List Str) :=
  [("\\b(hate|despise|loathe)\\s+(all|every)\\s+\\w+".toList,
    ["hate".toList, "despise".toList, "loathe".toList],
    ["all".toList, "every".toList]),
   ("\\b(kill|destroy|eliminate)\\s+(all|every)\\s+\\w+".toList,
    ["kill".toList, "destroy".toList, "eliminate".toList],
    ["all".toList, "every".toList])]

/-- List `misinformation_indicators`. -/
def misinformation_indicators : List Str :=
  ["proven fact".toList, "scientists agree".toList, "studies show".toList,
   "everyone knows".toList, "obvious truth".toList, "undeniable".toList]

/-- Method `_check_profanity`: one MEDIUM flag per pattern with matches. -/
def _check_profanity (content_lower : Str) : List SecurityFlag :=
  profanity_patterns.filterMap fun pr =>
    let ms := findWordMatches pr.2 content_lower
    if ms ≠ [] then
      some { flag_type := .PROFANITY, severity := .MEDIUM,
             details := .patternMatches ms pr.1 ms.length }
    else none

/-- Method `_check_religious_bias`: one flag when any keyword occurs, HIGH
when more than two keywords hit, else MEDIUM. -/
def _check_religious_bias (content_lower : Str) : List SecurityFlag :=
  let ms := religious_bias_keywords.filter
    (fun k => decide (strLower k <:+: content_lower))
  if ms ≠ [] then
    [{ flag_type := .RELIGIOUS_BIAS,
       severity := if ms.length > 2 then .HIGH else .MEDIUM,
       details := .keywordHits ms ms.length }]
  else []

/-- Method `_check_political_bias`. -/
def _check_political_bias (content_lower : Str) : List SecurityFlag :=
  let ms := political_bias_keywords.filter
    (fun k => decide (strLower k <:+: content_lower))
  if ms ≠ [] then
    [{ flag_type := .POLITICAL_BIAS,
       severity := if ms.length > 2 then .HIGH else .MEDIUM,
       details := .keywordHits ms ms.length }]
  else []

/-- Method `_check_controversy`: LOW severity unconditionally. -/
def _check_controversy (content_lower : Str) : List SecurityFlag :=
  let ms := controversy_keywords.filter
    (fun k => decide (strLower k <:+: content_lower))
  if ms ≠ [] then
    [{ flag_type := .CONTROVERSY, severity := .LOW,
       details := .keywordHits ms ms.length }]
  else []

/-- Method `_check_hate_speech`: one CRITICAL flag per pattern with
matches. -/
def _check_hate_speech (content_lower : Str) : List SecurityFlag :=
  hate_speech_patterns.filterMap fun pr =>
    let ms := findPairMatches pr.2.1 pr.2.2 content_lower
    if ms ≠ [] then
      some { flag_type := .HATE_SPEECH, severity := .CRITICAL,
             details := .hateMatches ms pr.1 ms.length }
    else none

/-- Method `_check_misinformation`: MEDIUM severity. -/
def _check_misinformation (content_lower : Str) : List SecurityFlag :=
  let ms := misinformation_indicators.filter
    (fun k => decide (strLower k <:+: content_lower))
  if ms ≠ [] then
    [{ flag_type := .MISINFORMATION, severity := .MEDIUM,
       details := .indicatorHits ms ms.length }]
  else []

/-- Fixed battery of checks run by `analyze_content_security`, in source
order. Every check reads only the lowercased content. -/
def securityChecks (content : Str) : List SecurityFlag :=
  let content_lower := strLower content
  _check_profanity content_lower
    ++ _check_religious_bias content_lower
    ++ _check_political_bias content_lower
    ++ _check_controversy content_lower
    ++ _check_hate_speech content_lower
    ++ _check_misinformation content_lower

/-! ## security_guard.py: guard state, kill switch and logs -/

/-- Contents of the kill-switch sentinel file `kill_switch.json`: absent,
unparsable JSON, or a parsed record whose optional `active` field is the
value `data.get("active", False)` reads. -/
inductive KillSwitchFile where
  | absent
  | corrupt
  | record (active : Option Bool)
deriving DecidableEq, Repr

/-- Python `os.path.exists` on the sentinel path. -/
def killSwitchFileExists : KillSwitchFile → Bool
  | .absent => false
  | _ => true

/-- Method `_check_kill_switch`: missing file or unparsable JSON is
inactive; otherwise `data.get("active", False)`. -/
def _check_kill_switch : KillSwitchFile → Bool
  | .absent => false
  | .corrupt => false
  | .record a => a.getD false

/-- Entry appended to the daily `security_analysis_*.json` log. -/
structure AnalysisLogEntry where
  content_id : Str
  analyzed_at : Nat
  content_preview : Str
  flags : List SecurityFlag
deriving DecidableEq, Repr

/-- Entry appended to the daily `security_events_*.json` log (the audit
trail of kill-switch activations and deactivations). -/
structure EventLogEntry where
  event_type : Str
  logged_at : Nat
  reason : Option Str
deriving DecidableEq, Repr

/-- Mutable state of a `SecurityGuard` instance together with the files it
owns: the in-memory flag, the sentinel file, and the two append-only
logs. -/
structure GuardState where
  kill_switch_active : Bool
  kill_switch_file : KillSwitchFile
  analysis_log : List AnalysisLogEntry
  events_log : List EventLogEntry
deriving DecidableEq, Repr

/-- Constructor `SecurityGuard.__init__` restricted to the kill-switch
derivation: at process (re)start the in-memory flag is recomputed from the
sentinel file by `_check_kill_switch`. -/
def guardInit (f : KillSwitchFile) : GuardState :=
  { kill_switch_active := _check_kill_switch f
    kill_switch_file := f
    analysis_log := []
    events_log := [] }

/-- Preview string `content[:100] + "..."` of `_log_security_analysis`. -/
def contentPreview (content : Str) : Str :=
  if content.length > 100 then content.take 100 ++ "...".toList else content

/-- Method `analyze_content_security`: with the kill switch active the call
raises immediately (state untouched, nothing logged); otherwise the check
battery runs, the analysis is appended to the log and the flags are
returned. -/
def analyze_content_security (g : GuardState) (content : Str)
    (content_id : Str) (now : Nat) :
    Except Str (List SecurityFlag) × GuardState :=
  if g.kill_switch_active then
    (.error "Kill switch is active - content analysis blocked".toList, g)
  else
    let flags := securityChecks content
    (.ok flags,
      { g with
          analysis_log := g.analysis_log
            ++ [{ content_id := content_id, analyzed_at := now,
                  content_preview := contentPreview content,
                  flags := flags }] })

/-- Method `activate_kill_switch`: persist the sentinel record, flip the
in-memory flag, log the event, return `True`. -/
def activate_kill_switch (g : GuardState) (reason : Str) (now : Nat) :
    Bool × GuardState :=
  (true,
    { g with
        kill_switch_file := .record (some true)
        kill_switch_active := true
        events_log := g.events_log
          ++ [{ event_type := "KILL_SWITCH_ACTIVATED".toList, logged_at := now,
                reason := some reason }] })

/-- Method `deactivate_kill_switch`: remove the sentinel file (if any),
flip the in-memory flag off, log the event, return `True`. -/
def deactivate_kill_switch (g : GuardState) (now : Nat) :
    Bool × GuardState :=
  (true,
    { g with
        kill_switch_file := .absent
        kill_switch_active := false
        events_log := g.events_log
          ++ [{ event_type := "KILL_SWITCH_DEACTIVATED".toList, logged_at := now,
                reason := none }] })

/-! ## security_guard.py: encryption with integrity checksum -/

/-- Payload record `content_data` built by `encrypt_content` before
serialization; `encrypted_at` (isoformat string) and `content_id` (uuid4)
are oracle inputs. -/
structure ContentData where
  content : Str
  language : Str
  encrypted_at : Str
  content_id : Str
deriving DecidableEq, Repr

/-- External-library interface used by `encrypt_content` /
`decrypt_content`: `json.dumps` / `json.loads` over the serialized text
type `J`, the Fernet symmetric cipher over the ciphertext type `Bytes`
(decryption of an invalid token fails), the SHA-256 hex digest, and
base64 transport encoding. Only these library calls are abstracted; the
repository's own logic around them is explicit below. -/
structure CryptoBackend where
  J : Type
  Bytes : Type
  jsonDumps : ContentData → J
  jsonLoads : J → Option ContentData
  fernetEncrypt : J → Bytes
  fernetDecrypt : Bytes → Option J
  sha256hex : Bytes → Str
  b64encode : Bytes → Str
  b64decode : Str → Bytes

/-- Raised errors of `decrypt_content`, kept apart as the spec demands:
the explicit checksum `Exception` versus a propagated library failure
(`InvalidToken` from Fernet, or a JSON parse error). -/
inductive DecryptError where
  | integrity
  | invalidToken
  | badPayload
deriving DecidableEq, Repr

/-- Method `encrypt_content`: serialize `content_data`, encrypt, checksum
the ciphertext (not the plaintext), return the base64 ciphertext with the
hex checksum. -/
def encrypt_content (B : CryptoBackend) (content : Str) (language : Str)
    (now : Str) (cid : Str) : Str × Str :=
  let content_data : ContentData :=
    { content := content, language := language, encrypted_at := now,
      content_id := cid }
  let encrypted_data := B.fernetEncrypt (B.jsonDumps content_data)
  (B.b64encode encrypted_data, B.sha256hex encrypted_data)

/-- Method `decrypt_content`: decode, recompute the checksum over the
ciphertext and compare it to the stored one before any decryption; on
mismatch raise the integrity error. -/
def decrypt_content (B : CryptoBackend) (encrypted_data : Str)
    (checksum : Str) : Except DecryptError ContentData :=
  let encrypted_bytes := B.b64decode encrypted_data
  let calculated_checksum := B.sha256hex encrypted_bytes
  if calculated_checksum ≠ checksum then
    .error .integrity
  else
    match B.fernetDecrypt encrypted_bytes with
    | none => .error .invalidToken
    | some j =>
        match B.jsonLoads j with
        | none => .error .badPayload
        | some content_data => .ok content_data

/-! ## derived counting helpers and concrete fixtures -/

/-- Number of posts in the store with a given status (what the `by_status`
counter dict of `get_publishing_stats` records per status value). -/
def countStatus (store : Store) (s : PublishStatus) : Nat :=
  (store.filter (fun e => decide (e.2.status = s))).length

/-- Concrete oracle used by witnesses: every attempt succeeds. -/
def okEnv : Str → SimOutcome :=
  fun _ => { succeed := true, hexId := "ab12cd34".toList,
             hexUrl := "ef56ab78".toList, pubTime := 7 }

/-- Concrete oracle whose attempts all hit the injected failure. -/
def failEnv : Str → SimOutcome :=
  fun _ => { succeed := false, hexId := "ab12cd34".toList,
             hexUrl := "ef56ab78".toList, pubTime := 7 }

/-- Concrete already-published post used by the idempotence witness. -/
def wPublishedPost : ScheduledPost :=
  { post_id := "A".toList, content_id := "c1".toList,
    platform := "twitter".toList, content := "hello".toList,
    scheduled_time := 1, status := .PUBLISHED, metadata := [],
    created_at := 0, published_at := some 1 }

/-- Store holding the published post together with one due post. -/
def wStore : Store :=
  [("A".toList, wPublishedPost),
   ("B".toList,
    { post_id := "B".toList, content_id := "c2".toList,
      platform := "linkedin".toList, content := "hi".toList,
      scheduled_time := 2, status := .SCHEDULED, metadata := [],
      created_at := 0 })]

/-- Post targeting a platform outside the supported set. -/
def fbPost : ScheduledPost :=
  { post_id := "F".toList, content_id := "c9".toList,
    platform := "facebook".toList, content := "x".toList,
    scheduled_time := 0, status := .SCHEDULED, metadata := [],
    created_at := 0 }

/-- Supported-platform post used by the failure-injection witness. -/
def twPost : ScheduledPost :=
  { post_id := "T".toList, content_id := "c3".toList,
    platform := "twitter".toList, content := "hello".toList,
    scheduled_time := 0, status := .SCHEDULED, metadata := [],
    created_at := 0 }

/-- Minimal post record with the given id, status and time. -/
def mkPost (pid : Str) (s : PublishStatus) (t : Nat) : ScheduledPost :=
  { post_id := pid, content_id := "c".toList, platform := "twitter".toList,
    content := "x".toList, scheduled_time := t, status := s,
    metadata := [], created_at := 0,
    published_at := if s = .PUBLISHED then some t else none,
    error_message := if s = .FAILED then some "e".toList else none }

/-- Store with nine PUBLISHED and one FAILED post (the spec's 0.9
scenario). -/
def store10 : Store :=
  [("p0".toList, mkPost "p0".toList .PUBLISHED 0),
   ("p1".toList, mkPost "p1".toList .PUBLISHED 1),
   ("p2".toList, mkPost "p2".toList .PUBLISHED 2),
   ("p3".toList, mkPost "p3".toList .PUBLISHED 3),
   ("p4".toList, mkPost "p4".toList .PUBLISHED 4),
   ("p5".toList, mkPost "p5".toList .PUBLISHED 5),
   ("p6".toList, mkPost "p6".toList .PUBLISHED 6),
   ("p7".toList, mkPost "p7".toList .PUBLISHED 7),
   ("p8".toList, mkPost "p8".toList .PUBLISHED 8),
   ("f0".toList, mkPost "f0".toList .FAILED 9)]

/-- Store whose insertion order disagrees with ascending
`scheduled_time`: the later post was scheduled first. -/
def ooStore : Store :=
  [("A".toList, mkPost "A".toList .SCHEDULED 10),
   ("B".toList, mkPost "B".toList .SCHEDULED 5)]

/-- Guard state with the kill switch active (as after an activation). -/
def wBlockedGuard : GuardState :=
  { kill_switch_active := true,
    kill_switch_file := .record (some true),
    analysis_log := [], events_log := [] }

/-- Degenerate but well-typed library backend used by crypto witnesses:
serialization and encryption are the identity on the payload record. -/
def idBackend : CryptoBackend :=
  { J := ContentData
    Bytes := ContentData
    jsonDumps := id
    jsonLoads := some
    fernetEncrypt := id
    fernetDecrypt := some
    sha256hex := fun _ => "h".toList
    b64encode := fun _ => "b".toList
    b64decode := fun _ =>
      { content := [], language := [], encrypted_at := [], content_id := [] } }

/-- Field invariant of §3 of the spec for one post record. -/
def InvPost (p : ScheduledPost) : Prop :=
  (p.published_at ≠ none ↔ p.status = .PUBLISHED) ∧
  (p.error_message ≠ none ↔ p.status = .FAILED)

/-- Well-formedness of a reachable store: unique post ids (a Python dict
cannot hold duplicate keys) and the field invariant for every record. -/
def StoreWF (store : Store) : Prop :=
  (store.map Prod.fst).Nodup ∧ ∀ e ∈ store, InvPost e.2

/-! ## helper lemmas on the dict embedding -/

theorem listMap_eq_self {α : Type} {f : α → α} {l : List α}
    (h : ∀ a ∈ l, f a = a) : l.map f = l := by
  induction l with
  | nil => rfl
  | cons a l ih =>
      simp only [List.map_cons, h a (List.mem_cons_self a l)]
      rw [ih (fun b hb => h b (List.mem_cons_of_mem a hb))]

theorem dictGet?_cons_pos {α : Type} {e : Str × α} {m : List (Str × α)}
    {key : Str} (h : e.1 = key) : dictGet? (e :: m) key = some e.2 := by
  unfold dictGet?
  rw [List.find?_cons_of_pos]
  · rfl
  · simp [h]

theorem dictGet?_cons_neg {α : Type} {e : Str × α} {m : List (Str × α)}
    {key : Str} (h : ¬e.1 = key) : dictGet? (e :: m) key = dictGet? m key := by
  unfold dictGet?
  rw [List.find?_cons_of_neg]
  simp [h]

theorem dictGet?_map_overwrite {α : Type} (m : List (Str × α)) (k key : Str)
    (v : α) :
    dictGet? (m.map (fun e => if e.1 = k then (k, v) else e)) key =
      if key = k then
        (if m.any (fun e => decide (e.1 = k)) then some v else none)
      else dictGet? m key := by
  induction m with
  | nil => by_cases h : key = k <;> simp [dictGet?, h]
  | cons e es ih =>
      simp only [List.map_cons]
      by_cases hek : e.1 = k
      · by_cases hkey : key = k
        · rw [if_pos hek, dictGet?_cons_pos (by simp [hkey]), if_pos hkey,
            if_pos]
          simp [List.any_cons, hek]
        · rw [if_pos hek, dictGet?_cons_neg (by simp; exact fun h => hkey h.symm),
            ih, if_neg hkey, if_neg hkey,
            dictGet?_cons_neg (fun h => hkey ((hek.symm.trans h).symm))]
      · by_cases hekey : e.1 = key
        · have hkk : ¬key = k := fun h => hek (hekey.trans h)
          rw [if_neg hek, dictGet?_cons_pos hekey, if_neg hkk,
            dictGet?_cons_pos hekey]
        · rw [if_neg hek, dictGet?_cons_neg hekey, ih,
            dictGet?_cons_neg hekey]
          by_cases hkey : key = k
          · rw [if_pos hkey, if_pos hkey, List.any_cons,
              show (decide (e.1 = k)) = false by simp [hek], Bool.false_or]
          · rw [if_neg hkey, if_neg hkey]

theorem option_or_none {α : Type} (o : Option α) : o.or none = o := by
  cases o <;> rfl

theorem dictGet?_append_singleton {α : Type} (m : List (Str × α))
    (k key : Str) (v : α) :
    dictGet? (m ++ [(k, v)]) key =
      (dictGet? m key).or (if key = k then some v else none) := by
  induction m with
  | nil =>
      by_cases hk : key = k
      · rw [List.nil_append, dictGet?_cons_pos hk.symm, if_pos hk]
        simp [dictGet?, Option.or]
      · rw [List.nil_append, dictGet?_cons_neg (fun h => hk h.symm), if_neg hk]
        simp [dictGet?, Option.or]
  | cons e es ih =>
      by_cases he : e.1 = key
      · rw [List.cons_append, dictGet?_cons_pos he, dictGet?_cons_pos he]
        rfl
      · rw [List.cons_append, dictGet?_cons_neg he, dictGet?_cons_neg he, ih]

theorem dictGet?_dictSet {α : Type} (m : List (Str × α)) (k key : Str)
    (v : α) :
    dictGet? (dictSet m k v) key =
      if key = k then some v else dictGet? m key := by
  unfold dictSet
  by_cases hany : m.any (fun e => decide (e.1 = k))
  · rw [if_pos hany, dictGet?_map_overwrite, if_pos hany]
  · rw [if_neg hany, dictGet?_append_singleton]
    by_cases hkey : key = k
    · have hnone : dictGet? m key = none := by
        unfold dictGet?
        rw [List.find?_eq_none.2]
        · rfl
        · intro x hx
          simp only [decide_eq_true_eq]
          intro hxk
          exact hany (List.any_eq_true.2 ⟨x, hx, by simp [hkey ▸ hxk]⟩)
      rw [hnone, if_pos hkey]
      rfl
    · rw [if_neg hkey, if_neg hkey, option_or_none]

theorem dictGetD_dictSet {α : Type} (m : List (Str × α)) (k key : Str)
    (v d0 : α) :
    dictGetD (dictSet m k v) key d0 =
      if key = k then v else dictGetD m key d0 := by
  unfold dictGetD
  rw [dictGet?_dictSet]
  by_cases h : key = k <;> simp [h]

theorem mem_dictSet {α : Type} {m : List (Str × α)} {k : Str} {v : α}
    {e : Str × α} (h : e ∈ dictSet m k v) : e ∈ m ∨ e = (k, v) := by
  unfold dictSet at h
  by_cases hany : m.any (fun e => decide (e.1 = k))
  · rw [if_pos hany] at h
    obtain ⟨b, hb, hbe⟩ := List.mem_map.1 h
    by_cases hbk : b.1 = k
    · right; rw [← hbe, if_pos hbk]
    · left; rwa [← hbe, if_neg hbk]
  · rw [if_neg hany] at h
    rcases List.mem_append.1 h with h1 | h1
    · exact Or.inl h1
    · exact Or.inr (List.mem_singleton.1 h1)

theorem nodupKeys_dictSet {α : Type} {m : List (Str × α)} {k : Str} {v : α}
    (h : (m.map Prod.fst).Nodup) : ((dictSet m k v).map Prod.fst).Nodup := by
  unfold dictSet
  by_cases hany : m.any (fun e => decide (e.1 = k))
  · rw [if_pos hany, List.map_map]
    have heq : (m.map (Prod.fst ∘ fun e => if e.1 = k then (k, v) else e)) =
        m.map Prod.fst := by
      apply List.map_congr_left
      intro e _
      by_cases hek : e.1 = k <;> simp [hek]
    rw [heq]; exact h
  · rw [if_neg hany]
    simp only [List.map_append, List.map_cons, List.map_nil]
    rw [List.nodup_append]
    refine ⟨h, List.nodup_singleton k, ?_⟩
    intro a ha
    simp only [List.mem_singleton]
    intro hak
    subst hak
    obtain ⟨e, he, hek⟩ := List.mem_map.1 ha
    exact hany (List.any_eq_true.2 ⟨e, he, by simp [hek]⟩)

theorem dictGet?_eq_of_mem_nodup {α : Type} {m : List (Str × α)} {pid : Str}
    {p : α} (hnd : (m.map Prod.fst).Nodup) (hmem : (pid, p) ∈ m) :
    dictGet? m pid = some p := by
  induction m with
  | nil => cases hmem
  | cons e es ih =>
      rcases List.mem_cons.1 hmem with h1 | h1
      · rw [← h1]
        exact dictGet?_cons_pos rfl
      · have hnd2 : (es.map Prod.fst).Nodup := (List.nodup_cons.1 hnd).2
        have hnotin : e.1 ∉ es.map Prod.fst := (List.nodup_cons.1 hnd).1
        have hne : ¬e.1 = pid := by
          intro hcontra
          exact hnotin (hcontra ▸ List.mem_map.2 ⟨(pid, p), h1, rfl⟩)
        rw [dictGet?_cons_neg hne]
        exact ih hnd2 h1

/-! ## helper lemmas on the sweep -/

theorem stepPost_key (now : Nat) (env : Str → SimOutcome)
    (e : Str × ScheduledPost) : (stepPost now env e).1 = e.1 := by
  unfold stepPost
  by_cases h : dueAt now e.2
  · rw [if_pos h]
  · rw [if_neg h]

theorem stepPost_not_due (now : Nat) (env : Str → SimOutcome)
    {e : Str × ScheduledPost} (h : ¬dueAt now e.2) :
    stepPost now env e = e := by
  unfold stepPost
  rw [if_neg h]

theorem stepPost_not_scheduled (now : Nat) (env : Str → SimOutcome)
    {e : Str × ScheduledPost} (h : e.2.status ≠ .SCHEDULED) :
    stepPost now env e = e :=
  stepPost_not_due now env (fun hdue => h hdue.1)

theorem publishTransition_status (r : PubResult) (t : Nat)
    (p : ScheduledPost) :
    (publishTransition r t p).status = .PUBLISHED ∨
    (publishTransition r t p).status = .FAILED := by
  unfold publishTransition
  cases r with
  | success a b c d e => left; rfl
  | failed a b => right; rfl

theorem stepPost_result_not_due (now : Nat) (env : Str → SimOutcome)
    (e : Str × ScheduledPost) : ¬dueAt now (stepPost now env e).2 := by
  unfold stepPost
  by_cases h : dueAt now e.2
  · rw [if_pos h]
    intro hdue
    rcases publishTransition_status (simulate_publish (env e.1) e.2)
        (env e.1).pubTime e.2 with hs | hs <;>
      rw [hdue.1] at hs <;> cases hs
  · rw [if_neg h]
    exact h

theorem process_of_no_due (store : Store) (now : Nat)
    (env : Str → SimOutcome) (h : ∀ e ∈ store, ¬dueAt now e.2) :
    process_scheduled_posts store now env = (store, []) := by
  unfold process_scheduled_posts
  refine Prod.ext ?_ ?_
  · exact listMap_eq_self (fun e he => stepPost_not_due now env (h e he))
  · simp only
    rw [List.filterMap_eq_nil_iff.2]
    intro e he
    unfold sweepEntry
    rw [if_neg (h e he)]

/-! ## helper lemmas: invariant preservation -/

theorem InvPost_fields_of_scheduled {p : ScheduledPost} (hp : InvPost p)
    (hs : p.status = .SCHEDULED) :
    p.published_at = none ∧ p.error_message = none := by
  constructor
  · by_contra hne
    have h2 := hp.1.mp hne
    rw [hs] at h2
    cases h2
  · by_contra hne
    have h2 := hp.2.mp hne
    rw [hs] at h2
    cases h2

theorem InvPost_publishTransition {p : ScheduledPost} (hp : InvPost p)
    (hs : p.status = .SCHEDULED) (r : PubResult) (t : Nat) :
    InvPost (publishTransition r t p) := by
  obtain ⟨hpub, herr⟩ := InvPost_fields_of_scheduled hp hs
  unfold publishTransition
  cases r with
  | success a b c d e =>
      refine ⟨by simp, ?_⟩
      simp only [herr]
      constructor
      · intro h; cases h rfl
      · intro h; cases h
  | failed err retry =>
      refine ⟨?_, by simp⟩
      simp only [hpub]
      constructor
      · intro h; cases h rfl
      · intro h; cases h

theorem InvPost_stepPost {e : Str × ScheduledPost} (hp : InvPost e.2)
    (now : Nat) (env : Str → SimOutcome) :
    InvPost (stepPost now env e).2 := by
  unfold stepPost
  by_cases h : dueAt now e.2
  · rw [if_pos h]
    exact InvPost_publishTransition hp h.1 _ _
  · rw [if_neg h]
    exact hp

theorem StoreWF_empty : StoreWF [] :=
  ⟨List.nodup_nil, fun e he => absurd he (List.not_mem_nil e)⟩

theorem StoreWF_schedule {store : Store} (h : StoreWF store)
    (pid cid platform content : Str) (t : Nat)
    (meta : List (Str × MVal)) (now : Nat) :
    StoreWF (schedule_post store pid cid platform content t meta now).1 := by
  unfold schedule_post
  refine ⟨nodupKeys_dictSet h.1, ?_⟩
  intro e he
  rcases mem_dictSet he with h1 | h1
  · exact h.2 e h1
  · rw [h1]
    exact ⟨by simp [InvPost], by simp [InvPost]⟩

theorem StoreWF_sweep {store : Store} (h : StoreWF store) (now : Nat)
    (env : Str → SimOutcome) :
    StoreWF (process_scheduled_posts store now env).1 := by
  unfold process_scheduled_posts
  constructor
  · simp only [List.map_map]
    have heq : store.map (Prod.fst ∘ stepPost now env) = store.map Prod.fst :=
      List.map_congr_left (fun e _ => stepPost_key now env e)
    rw [heq]
    exact h.1
  · intro e he
    obtain ⟨b, hb, hbe⟩ := List.mem_map.1 he
    rw [← hbe]
    exact InvPost_stepPost (h.2 b hb) now env

theorem StoreWF_cancel {store : Store} (h : StoreWF store) (pid : Str) :
    StoreWF (cancel_scheduled_post store pid).1 := by
  unfold cancel_scheduled_post
  cases hget : dictGet? store pid with
  | none => exact h
  | some post =>
      by_cases hs : post.status = .SCHEDULED
      · simp only [if_pos hs]
        constructor
        · simp only [List.map_map]
          have heq : store.map
              (Prod.fst ∘ fun e =>
                if e.1 = pid then (e.1, { e.2 with status := .CANCELLED })
                else e) = store.map Prod.fst := by
            apply List.map_congr_left
            intro e _
            by_cases hek : e.1 = pid <;> simp [hek]
          rw [heq]
          exact h.1
        · intro e he
          obtain ⟨b, hb, hbe⟩ := List.mem_map.1 he
          by_cases hbk : b.1 = pid
          · rw [if_pos hbk] at hbe
            have hbpost : dictGet? store pid = some b.2 := by
              have : (pid, b.2) ∈ store := by
                have hb2 : b = (pid, b.2) := by
                  cases b with
                  | mk b1 b2 => simp only at hbk ⊢; rw [hbk]
                rwa [hb2] at hb
              exact dictGet?_eq_of_mem_nodup h.1 this
            have hbp : b.2 = post := by
              rw [hbpost] at hget
              exact Option.some.inj hget
            obtain ⟨hpub, herr⟩ :=
              InvPost_fields_of_scheduled (h.2 b hb) (hbp ▸ hs)
            rw [← hbe]
            refine ⟨?_, ?_⟩
            · simp only [hpub]
              exact ⟨fun h2 => absurd rfl h2, fun h2 => by cases h2⟩
            · simp only [herr]
              exact ⟨fun h2 => absurd rfl h2, fun h2 => by cases h2⟩
          · rw [if_neg hbk] at hbe
            rw [← hbe]
            exact h.2 b hb
      · simp only [if_neg hs]
        exact h

theorem StoreWF_reschedule {store : Store} (h : StoreWF store) (pid : Str)
    (t : Nat) : StoreWF (reschedule_post store pid t).1 := by
  unfold reschedule_post
  cases hget : dictGet? store pid with
  | none => exact h
  | some post =>
      by_cases hs : post.status = .SCHEDULED
      · simp only [if_pos hs]
        constructor
        · simp only [List.map_map]
          have heq : store.map
              (Prod.fst ∘ fun e =>
                if e.1 = pid then (e.1, { e.2 with scheduled_time := t })
                else e) = store.map Prod.fst := by
            apply List.map_congr_left
            intro e _
            by_cases hek : e.1 = pid <;> simp [hek]
          rw [heq]
          exact h.1
        · intro e he
          obtain ⟨b, hb, hbe⟩ := List.mem_map.1 he
          by_cases hbk : b.1 = pid
          · rw [if_pos hbk] at hbe
            have hb2 := h.2 b hb
            rw [← hbe]
            exact ⟨hb2.1, hb2.2⟩
          · rw [if_neg hbk] at hbe
            rw [← hbe]
            exact h.2 b hb
      · simp only [if_neg hs]
        exact h

theorem StoreWF_applyOp {store : Store} (h : StoreWF store)
    (op : SchedulerOp) : StoreWF (applyOp store op) := by
  cases op with
  | schedule pid cid platform content t meta now =>
      exact StoreWF_schedule h pid cid platform content t meta now
  | sweep now env => exact StoreWF_sweep h now env
  | cancel pid => exact StoreWF_cancel h pid
  | reschedule pid t => exact StoreWF_reschedule h pid t

theorem StoreWF_runOps (ops : List SchedulerOp) : StoreWF (runOps ops) := by
  unfold runOps
  have hgen : ∀ (l : List SchedulerOp) (acc : Store), StoreWF acc →
      StoreWF (l.foldl applyOp acc) := by
    intro l
    induction l with
    | nil => intro acc hacc; exact hacc
    | cons op l ih =>
        intro acc hacc
        exact ih (applyOp acc op) (StoreWF_applyOp hacc op)
  exact hgen ops [] StoreWF_empty

/-! ## helper lemmas: status counting -/

theorem countsFold_get (l : Store) (acc : List (Str × Nat)) (key : Str) :
    dictGetD
      (l.foldl
        (fun acc e =>
          dictSet acc e.2.status.value (dictGetD acc e.2.status.value 0 + 1))
        acc) key 0 =
      dictGetD acc key 0 +
        (l.filter (fun e => decide (e.2.status.value = key))).length := by
  induction l generalizing acc with
  | nil => simp
  | cons e es ih =>
      rw [List.foldl_cons, ih, dictGetD_dictSet, List.filter_cons]
      by_cases hkey : key = e.2.status.value
      · rw [if_pos hkey, if_pos (by simp [hkey])]
        simp only [List.length_cons, hkey]
        omega
      · rw [if_neg hkey,
          if_neg (by simp; exact fun h => hkey h.symm)]

theorem byStatusCounts_get (store : Store) (key : Str) :
    dictGetD (byStatusCounts store) key 0 =
      (store.filter (fun e => decide (e.2.status.value = key))).length := by
  unfold byStatusCounts
  rw [countsFold_get]
  simp [dictGetD, dictGet?]

theorem statusValue_published (s : PublishStatus) :
    decide (s.value = "published".toList) = decide (s = .PUBLISHED) := by
  cases s <;> decide

theorem statusValue_failed (s : PublishStatus) :
    decide (s.value = "failed".toList) = decide (s = .FAILED) := by
  cases s <;> decide

theorem byStatusCounts_published (store : Store) :
    dictGetD (byStatusCounts store) "published".toList 0 =
      countStatus store .PUBLISHED := by
  rw [byStatusCounts_get]
  unfold countStatus
  rw [List.filter_congr (fun e _ => statusValue_published e.2.status)]

theorem byStatusCounts_failed (store : Store) :
    dictGetD (byStatusCounts store) "failed".toList 0 =
      countStatus store .FAILED := by
  rw [byStatusCounts_get]
  unfold countStatus
  rw [List.filter_congr (fun e _ => statusValue_failed e.2.status)]

/-! ## helper lemmas: listing order and sweep order -/

theorem perm_insertByTime (e : Str × ScheduledPost)
    (l : List (Str × ScheduledPost)) : (insertByTime e l).Perm (e :: l) := by
  induction l with
  | nil => exact List.Perm.refl _
  | cons q qs ih =>
      unfold insertByTime
      by_cases h : e.2.scheduled_time < q.2.scheduled_time
      · rw [if_pos h]
      · rw [if_neg h]
        exact (ih.cons q).trans (List.Perm.swap e q qs)

theorem perm_foldl_insertByTime (l acc : List (Str × ScheduledPost)) :
    (l.foldl (fun a e => insertByTime e a) acc).Perm (acc ++ l) := by
  induction l generalizing acc with
  | nil => simp
  | cons e es ih =>
      rw [List.foldl_cons]
      refine (ih (insertByTime e acc)).trans ?_
      refine (List.Perm.append_right es (perm_insertByTime e acc)).trans ?_
      exact List.perm_middle.symm

theorem perm_get_scheduled_posts (store : Store) :
    (get_scheduled_posts store).Perm store := by
  unfold get_scheduled_posts
  simpa using perm_foldl_insertByTime store []

theorem pairwise_insertByTime {e : Str × ScheduledPost}
    {l : List (Str × ScheduledPost)}
    (h : l.Pairwise (fun a b => a.2.scheduled_time ≤ b.2.scheduled_time)) :
    (insertByTime e l).Pairwise
      (fun a b => a.2.scheduled_time ≤ b.2.scheduled_time) := by
  induction l with
  | nil => simp [insertByTime]
  | cons q qs ih =>
      unfold insertByTime
      rcases List.pairwise_cons.1 h with ⟨hq, hqs⟩
      by_cases hlt : e.2.scheduled_time < q.2.scheduled_time
      · rw [if_pos hlt]
        refine List.pairwise_cons.2 ⟨?_, h⟩
        intro x hx
        rcases List.mem_cons.1 hx with h1 | h1
        · rw [h1]; exact Nat.le_of_lt hlt
        · exact Nat.le_trans (Nat.le_of_lt hlt) (hq x h1)
      · rw [if_neg hlt]
        refine List.pairwise_cons.2 ⟨?_, ih hqs⟩
        intro x hx
        have hx2 : x ∈ e :: qs := (perm_insertByTime e qs).mem_iff.1 hx
        rcases List.mem_cons.1 hx2 with h1 | h1
        · rw [h1]; exact Nat.le_of_not_lt hlt
        · exact hq x h1

theorem sorted_foldl_insertByTime (l acc : List (Str × ScheduledPost))
    (hacc : acc.Pairwise (fun a b => a.2.scheduled_time ≤ b.2.scheduled_time)) :
    (l.foldl (fun a e => insertByTime e a) acc).Pairwise
      (fun a b => a.2.scheduled_time ≤ b.2.scheduled_time) := by
  induction l generalizing acc with
  | nil => exact hacc
  | cons e es ih =>
      rw [List.foldl_cons]
      exact ih (insertByTime e acc) (pairwise_insertByTime hacc)

theorem sorted_get_scheduled_posts (store : Store) :
    (get_scheduled_posts store).Pairwise
      (fun a b => a.2.scheduled_time ≤ b.2.scheduled_time) :=
  sorted_foldl_insertByTime store [] List.Pairwise.nil

theorem sweepEntry_due {now : Nat} (env : Str → SimOutcome)
    {e : Str × ScheduledPost} (h : dueAt now e.2) :
    sweepEntry now env e =
      some { post_id := e.1, platform := e.2.platform,
             statusValue := (stepPost now env e).2.status.value,
             result := simulate_publish (env e.1) e.2 } := by
  unfold sweepEntry
  rw [if_pos h]

theorem sweepEntry_not_due {now : Nat} (env : Str → SimOutcome)
    {e : Str × ScheduledPost} (h : ¬dueAt now e.2) :
    sweepEntry now env e = none := by
  unfold sweepEntry
  rw [if_neg h]

theorem processed_ids (store : Store) (now : Nat) (env : Str → SimOutcome) :
    (process_scheduled_posts store now env).2.map (fun e => e.post_id) =
      (store.filter (fun e => decide (dueAt now e.2))).map Prod.fst := by
  show (store.filterMap (sweepEntry now env)).map (fun e => e.post_id) =
    (store.filter (fun e => decide (dueAt now e.2))).map Prod.fst
  induction store with
  | nil => rfl
  | cons e es ih =>
      simp only [List.filterMap_cons, List.filter_cons]
      by_cases h : dueAt now e.2
      · rw [if_pos (by simpa using h), sweepEntry_due env h]
        simp only [List.map_cons]
        rw [ih]
      · rw [if_neg (by simpa using h), sweepEntry_not_due env h]
        exact ih

/-! ## claims -/

/-- Claim C1: the sweep is idempotent per post — every post whose status is
not SCHEDULED is left entirely unchanged by `process_scheduled_posts` (and
is still present unchanged in the resulting store), and a second sweep run
immediately after a first one, with no time advance, changes no post and
processes nothing. -/
theorem sweep_idempotent_per_post (store : Store) (now : Nat)
    (env env2 : Str → SimOutcome) :
    (∀ pid post, (pid, post) ∈ store → post.status ≠ .SCHEDULED →
      stepPost now env (pid, post) = (pid, post) ∧
      (pid, post) ∈ (process_scheduled_posts store now env).1) ∧
    process_scheduled_posts (process_scheduled_posts store now env).1 now
        env2 =
      ((process_scheduled_posts store now env).1, []) := by
  constructor
  · intro pid post hmem hstatus
    have hstep : stepPost now env (pid, post) = (pid, post) :=
      stepPost_not_scheduled now env hstatus
    refine ⟨hstep, ?_⟩
    have h1 : (process_scheduled_posts store now env).1 =
        store.map (stepPost now env) := rfl
    rw [h1]
    exact hstep ▸ List.mem_map_of_mem (stepPost now env) hmem
  · apply process_of_no_due
    intro e he
    have h1 : (process_scheduled_posts store now env).1 =
        store.map (stepPost now env) := rfl
    rw [h1] at he
    obtain ⟨b, hb, hbe⟩ := List.mem_map.1 he
    rw [← hbe]
    exact stepPost_result_not_due now env b

/-- Witness for C1 at a concrete store holding one PUBLISHED and one due
SCHEDULED post. -/
theorem sweep_idempotent_per_post_witness :
    (stepPost 5 okEnv ("A".toList, wPublishedPost) =
        ("A".toList, wPublishedPost) ∧
      ("A".toList, wPublishedPost) ∈
        (process_scheduled_posts wStore 5 okEnv).1) ∧
    process_scheduled_posts (process_scheduled_posts wStore 5 okEnv).1 5
        failEnv =
      ((process_scheduled_posts wStore 5 okEnv).1, []) :=
  ⟨(sweep_idempotent_per_post wStore 5 okEnv failEnv).1 "A".toList
      wPublishedPost (by decide) (by decide),
    (sweep_idempotent_per_post wStore 5 okEnv failEnv).2⟩

/-- Claim C2: after any sequence of schedule, sweep, cancel and reschedule
operations starting from the empty store, every post satisfies
`published_at ≠ none ↔ status = PUBLISHED` and
`error_message ≠ none ↔ status = FAILED`. -/
theorem status_field_invariant (ops : List SchedulerOp) (pid : Str)
    (post : ScheduledPost) (hmem : (pid, post) ∈ runOps ops) :
    (post.published_at ≠ none ↔ post.status = .PUBLISHED) ∧
    (post.error_message ≠ none ↔ post.status = .FAILED) :=
  (StoreWF_runOps ops).2 (pid, post) hmem

/-- Witness for C2 after one concrete schedule operation. -/
theorem status_field_invariant_witness :
    ((mkPost "A".toList .SCHEDULED 3).published_at ≠ none ↔
      (mkPost "A".toList .SCHEDULED 3).status = .PUBLISHED) ∧
    ((mkPost "A".toList .SCHEDULED 3).error_message ≠ none ↔
      (mkPost "A".toList .SCHEDULED 3).status = .FAILED) :=
  status_field_invariant
    [.schedule "A".toList "c".toList "twitter".toList "x".toList 3 [] 0]
    "A".toList (mkPost "A".toList .SCHEDULED 3) (by decide)

/-- Claim C3: `decrypt_content` recomputes the checksum over the provided
ciphertext and, whenever it differs from the stored checksum, raises the
integrity error and returns no plaintext — for every backend, so the
result cannot depend on any decryption step. -/
theorem decrypt_checksum_mismatch (B : CryptoBackend) (data chk : Str)
    (h : B.sha256hex (B.b64decode data) ≠ chk) :
    decrypt_content B data chk = .error .integrity := by
  unfold decrypt_content
  rw [if_pos h]

/-- Witness for C3 at a concrete corrupted checksum. -/
theorem decrypt_checksum_mismatch_witness :
    idBackend.sha256hex (idBackend.b64decode "zzzz".toList) ≠
        "deadbeef".toList ∧
    decrypt_content idBackend "zzzz".toList "deadbeef".toList =
      .error .integrity :=
  ⟨by decide,
    decrypt_checksum_mismatch idBackend "zzzz".toList "deadbeef".toList
      (by decide)⟩

/-- Claim C10: decrypting the (ciphertext, checksum) pair produced by
`encrypt_content` succeeds and returns the original content and language,
assuming the documented round-trip contracts of the json, Fernet and
base64 libraries at the encrypted value. -/
theorem encrypt_decrypt_roundtrip (B : CryptoBackend)
    (content language now cid : Str)
    (hb64 : B.b64decode (B.b64encode (B.fernetEncrypt (B.jsonDumps
        ⟨content, language, now, cid⟩))) =
      B.fernetEncrypt (B.jsonDumps ⟨content, language, now, cid⟩))
    (hfernet : B.fernetDecrypt (B.fernetEncrypt (B.jsonDumps
        ⟨content, language, now, cid⟩)) =
      some (B.jsonDumps ⟨content, language, now, cid⟩))
    (hjson : B.jsonLoads (B.jsonDumps ⟨content, language, now, cid⟩) =
      some ⟨content, language, now, cid⟩) :
    decrypt_content B (encrypt_content B content language now cid).1
        (encrypt_content B content language now cid).2 =
      .ok ⟨content, language, now, cid⟩ := by
  unfold encrypt_content decrypt_content
  simp only
  rw [hb64, if_neg (fun hne => hne rfl), hfernet]
  simp only [hjson]

/-- Witness for C10 at the identity backend and empty strings. -/
theorem encrypt_decrypt_roundtrip_witness :
    decrypt_content idBackend (encrypt_content idBackend [] [] [] []).1
        (encrypt_content idBackend [] [] [] []).2 =
      .ok { content := [], language := [], encrypted_at := [],
            content_id := [] } :=
  encrypt_decrypt_roundtrip idBackend [] [] [] [] (by rfl) (by rfl) (by rfl)

/-- Claim C4: while the kill switch is active, `analyze_content_security`
fails immediately with the blocked error for every input and leaves the
guard state (including both logs) untouched; immediately after
`deactivate_kill_switch` the analysis succeeds again for every input. -/
theorem kill_switch_gates_analysis (g : GuardState)
    (content content_id : Str) (now now2 : Nat) :
    (g.kill_switch_active = true →
      analyze_content_security g content content_id now =
        (.error "Kill switch is active - content analysis blocked".toList,
          g)) ∧
    (analyze_content_security (deactivate_kill_switch g now2).2 content
        content_id now).1 = .ok (securityChecks content) := by
  constructor
  · intro h
    unfold analyze_content_security
    rw [if_pos h]
  · unfold analyze_content_security
    rw [if_neg (by simp [deactivate_kill_switch])]

/-- Witness for C4 at a concrete blocked guard state. -/
theorem kill_switch_gates_analysis_witness :
    analyze_content_security wBlockedGuard "x".toList "c".toList 3 =
      (.error "Kill switch is active - content analysis blocked".toList,
        wBlockedGuard) ∧
    (analyze_content_security (deactivate_kill_switch wBlockedGuard 4).2
        "x".toList "c".toList 3).1 = .ok (securityChecks "x".toList) :=
  ⟨(kill_switch_gates_analysis wBlockedGuard "x".toList "c".toList 3 4).1
      rfl,
    (kill_switch_gates_analysis wBlockedGuard "x".toList "c".toList 3 4).2⟩

/-- Counterexample for C5: an unsupported platform does raise inside the
`try:` body, but the blanket `except` converts it into the ordinary failure
result dict, so no error propagates to the caller. -/
theorem unsupported_platform_counterexample :
    simulate_publish_body (okEnv []) fbPost =
      .error "Unsupported platform: facebook".toList ∧
    simulate_publish (okEnv []) fbPost =
      .failed "Unsupported platform: facebook".toList none := by
  constructor
  · rfl
  · rfl

/-- Claim C5 as amended: `simulate_publish` never lets an exception cross
its boundary — an unsupported platform is returned as a failure result
carrying the raised message (with no retry hint), and an injected publish
failure on a supported platform is returned as the failure result with the
300-second retry hint. -/
theorem simulate_publish_no_exceptions (o : SimOutcome)
    (post : ScheduledPost) :
    (platform_formatters_get post.platform = none →
      simulate_publish o post =
        .failed ("Unsupported platform: ".toList ++ post.platform) none) ∧
    (∀ fmt payload, platform_formatters_get post.platform = some fmt →
      fmt post.content post.metadata = .ok payload →
      o.succeed = false →
      simulate_publish o post =
        .failed "Platform API error (simulated)".toList (some 300)) := by
  constructor
  · intro h
    unfold simulate_publish simulate_publish_body
    rw [h]
  · intro fmt payload hfmt hok hfail
    unfold simulate_publish simulate_publish_body
    rw [hfmt]
    simp only [hok, hfail]
    rfl

/-- Witness for C5 (amended) at a concrete unsupported-platform post and a
concrete injected failure on twitter. -/
theorem simulate_publish_no_exceptions_witness :
    (platform_formatters_get fbPost.platform = none ∧
      simulate_publish (failEnv []) fbPost =
        .failed ("Unsupported platform: ".toList ++ fbPost.platform) none) ∧
    (platform_formatters_get twPost.platform = some _format_twitter_post ∧
      _format_twitter_post twPost.content twPost.metadata =
        .ok (.twitter "hello".toList [] "everyone".toList) ∧
      (failEnv []).succeed = false ∧
      simulate_publish (failEnv []) twPost =
        .failed "Platform API error (simulated)".toList (some 300)) :=
  ⟨⟨rfl, (simulate_publish_no_exceptions (failEnv []) fbPost).1 rfl⟩,
    ⟨rfl, rfl, rfl,
      (simulate_publish_no_exceptions (failEnv []) twPost).2
        _format_twitter_post (.twitter "hello".toList [] "everyone".toList)
        rfl rfl rfl⟩⟩

/-- Claim C6: the Twitter formatter transmits strings of length at most
280 unchanged and truncates longer strings to exactly 280 characters
ending in the ellipsis; the transmitted text never exceeds 280. -/
theorem twitter_text_within_280 (content : Str) :
    (content.length ≤ 280 → twitterText content = content) ∧
    (280 < content.length →
      (twitterText content).length = 280 ∧
      "...".toList <:+ twitterText content) ∧
    (twitterText content).length ≤ 280 ∧
    (∀ metadata, _format_twitter_post content metadata =
      .ok (.twitter (twitterText content) (getMediaUrls metadata)
        "everyone".toList)) := by
  have hlen : content.length > 280 →
      (content.take 277 ++ "...".toList).length = 280 := by
    intro h
    rw [List.length_append, List.length_take]
    have h3 : ("...".toList : List Char).length = 3 := rfl
    rw [h3]
    omega
  refine ⟨?_, ?_, ?_, fun _ => rfl⟩
  · intro h
    unfold twitterText
    rw [if_neg (by omega)]
  · intro h
    unfold twitterText
    rw [if_pos (by omega)]
    exact ⟨hlen h, List.suffix_append _ _⟩
  · unfold twitterText
    by_cases h : content.length > 280
    · rw [if_pos h, hlen h]
    · rw [if_neg h]
      omega

/-- Witness for C6 at a 300-character string and a short string. -/
theorem twitter_text_within_280_witness :
    (twitterText (List.replicate 300 'a')).length = 280 ∧
    "...".toList <:+ twitterText (List.replicate 300 'a') ∧
    twitterText "hi".toList = "hi".toList :=
  ⟨((twitter_text_within_280 (List.replicate 300 'a')).2.1
      (by rw [List.length_replicate]; omega)).1,
    ((twitter_text_within_280 (List.replicate 300 'a')).2.1
      (by rw [List.length_replicate]; omega)).2,
    (twitter_text_within_280 "hi".toList).1 (by decide)⟩

/-- Claim C7: `get_publishing_stats` returns
`success_rate = PUBLISHED / (PUBLISHED + FAILED)` whenever at least one
post was attempted, and 0 when no post was, with no division error. -/
theorem success_rate_formula (store : Store) :
    (countStatus store .PUBLISHED + countStatus store .FAILED ≠ 0 →
      (get_publishing_stats store).success_rate =
        (countStatus store .PUBLISHED : ℚ) /
          ((countStatus store .PUBLISHED : ℚ) +
            (countStatus store .FAILED : ℚ))) ∧
    (countStatus store .PUBLISHED + countStatus store .FAILED = 0 →
      (get_publishing_stats store).success_rate = 0) := by
  have hrate : (get_publishing_stats store).success_rate =
      if countStatus store .PUBLISHED + countStatus store .FAILED > 0 then
        ((countStatus store .PUBLISHED : ℚ)) /
          (((countStatus store .PUBLISHED + countStatus store .FAILED : Nat)
            : ℚ))
      else 0 := by
    unfold get_publishing_stats
    simp only [byStatusCounts_published, byStatusCounts_failed]
  constructor
  · intro h
    rw [hrate, if_pos (Nat.pos_of_ne_zero h)]
    push_cast
    rfl
  · intro h
    rw [hrate, if_neg (by omega)]

/-- Witness for C7: the spec scenario of nine PUBLISHED and one FAILED
post gives exactly 9/10, and the empty store gives 0. -/
theorem success_rate_formula_witness :
    (get_publishing_stats store10).success_rate = 9 / 10 ∧
    (get_publishing_stats []).success_rate = 0 := by
  constructor
  · have h := (success_rate_formula store10).1 (by decide)
    rw [h]
    norm_num [show countStatus store10 .PUBLISHED = 9 from by decide,
      show countStatus store10 .FAILED = 1 from by decide]
  · exact (success_rate_formula []).2 (by decide)

/-- Counterexample for C8: with two due posts scheduled in the opposite
order of their `scheduled_time`, the sweep processes them in store
insertion order, which differs from the ascending order the listing
returns. -/
theorem sweep_order_counterexample :
    (process_scheduled_posts ooStore 20 okEnv).2.map (fun e => e.post_id) =
      ["A".toList, "B".toList] ∧
    (get_scheduled_posts ooStore).map Prod.fst =
      ["B".toList, "A".toList] ∧
    (process_scheduled_posts ooStore 20 okEnv).2.map (fun e => e.post_id) ≠
      (get_scheduled_posts ooStore).map Prod.fst := by
  refine ⟨by decide, by decide, by decide⟩

/-- Claim C8 as amended: the sweep processes the due posts in the store
map's insertion order (the order of the underlying dict), not by
`scheduled_time`; the store listing, by contrast, returns the records
sorted ascending by `scheduled_time` (a permutation of the store). -/
theorem sweep_order_characterization (store : Store) (now : Nat)
    (env : Str → SimOutcome) :
    (process_scheduled_posts store now env).2.map (fun e => e.post_id) =
      (store.filter (fun e => decide (dueAt now e.2))).map Prod.fst ∧
    (get_scheduled_posts store).Pairwise
      (fun a b => a.2.scheduled_time ≤ b.2.scheduled_time) ∧
    (get_scheduled_posts store).Perm store :=
  ⟨processed_ids store now env, sorted_get_scheduled_posts store,
    perm_get_scheduled_posts store⟩

/-- Counterexample for C9: a sentinel file that exists but holds
`active: false` is reported inactive by `_check_kill_switch` (and by the
restart derivation), so file presence alone does not imply an active kill
switch. -/
theorem kill_switch_presence_counterexample :
    killSwitchFileExists (KillSwitchFile.record (some false)) = true ∧
    _check_kill_switch (KillSwitchFile.record (some false)) = false ∧
    (guardInit (KillSwitchFile.record (some false))).kill_switch_active =
      false := by
  refine ⟨rfl, rfl, rfl⟩

/-- Claim C9 as amended: the state derived at restart equals
`_check_kill_switch` of the sentinel file, which reports active exactly
when the file exists, parses, and its `active` field is true; for the
files the guard itself writes (activate and deactivate), presence and
reported activity do coincide. -/
theorem kill_switch_check_characterization :
    (∀ f, _check_kill_switch f = true ↔
      f = KillSwitchFile.record (some true)) ∧
    (∀ g reason now,
      killSwitchFileExists
          (activate_kill_switch g reason now).2.kill_switch_file = true ∧
      _check_kill_switch
          (activate_kill_switch g reason now).2.kill_switch_file = true) ∧
    (∀ g now,
      killSwitchFileExists
          (deactivate_kill_switch g now).2.kill_switch_file = false ∧
      _check_kill_switch
          (deactivate_kill_switch g now).2.kill_switch_file = false) ∧
    (∀ f, (guardInit f).kill_switch_active = _check_kill_switch f) := by
  refine ⟨?_, fun g reason now => ⟨rfl, rfl⟩, fun g now => ⟨rfl, rfl⟩,
    fun f => rfl⟩
  intro f
  cases f with
  | absent => decide
  | corrupt => decide
  | record a =>
      cases a with
      | none => decide
      | some b => cases b <;> decide
